import Mathlib

/-
Shallow embedding of the memory-allocation strategy engine of the
Memory_usage_of_algorithms repository (src/src/core/allocators/*.ts and
src/src/core/simulation/SmartEdgeAlloc.ts, SimulationEngine.ts).

Conventions used throughout:
* addresses and sizes are natural numbers of simulated bytes;
* a block is the pair (address, size), covering [address, address + size);
* JavaScript Map objects are modelled as association lists in key-insertion
  order (Map.set replaces in place, Map.delete removes, iteration follows
  insertion order), JavaScript Set objects as lists in insertion order;
* block ids are strings, as in the source;
* wall-clock quantities (performance.now timing averages, Date.now ids of
  free blocks) are omitted: free-block ids never influence control flow and
  the timing averages depend on real time;
* each `init` definition is the state established by the class's
  initialize() method with the constructor parameters in effect, i.e. the
  state after reset().  (At literal construction time, TypeScript runs
  initialize() from the base-class constructor before the subclass field
  initializers and constructor body have assigned the subclass fields; where
  a claim depends on that, a separate `constructedState` definition models
  the just-constructed instance.)
-/

namespace MemSim

/-- A memory block (address, size) covering the byte range
[address, address + size). -/
abbrev FB := Nat × Nat

/-- Sum of the sizes of a list of blocks. -/
def sumSizes (l : List FB) : Nat := (l.map Prod.snd).sum

/-- The ranges [x.1, x.1 + x.2) and [y.1, y.1 + y.2) intersect. -/
def blocksOverlap (x y : FB) : Prop :=
  max x.1 y.1 < min (x.1 + x.2) (y.1 + y.2)

instance (x y : FB) : Decidable (blocksOverlap x y) := by
  unfold blocksOverlap; infer_instance

/-- JavaScript Map.get: first entry with the given key. -/
def mapGet {κ ν : Type} [BEq κ] (m : List (κ × ν)) (k : κ) : Option ν :=
  (m.find? (fun p => p.1 == k)).map (fun p => p.2)

/-- JavaScript Map.set: replace in place when the key exists, otherwise
append (preserving key-insertion order). -/
def mapSet {κ ν : Type} [BEq κ] (m : List (κ × ν)) (k : κ) (v : ν) :
    List (κ × ν) :=
  if m.any (fun p => p.1 == k) then
    m.map (fun p => if p.1 == k then (k, v) else p)
  else m ++ [(k, v)]

/-- JavaScript Map.delete. -/
def mapDelete {κ ν : Type} [BEq κ] (m : List (κ × ν)) (k : κ) :
    List (κ × ν) :=
  m.filter (fun p => !(p.1 == k))

/-- The source idiom `if (!map.has(k)) map.set(k, []); map.get(k)!.push(v)`:
push v onto the list stored at k, creating the entry when missing. -/
def mapPush {κ : Type} [BEq κ] (m : List (κ × List FB)) (k : κ) (v : FB) :
    List (κ × List FB) :=
  if m.any (fun p => p.1 == k) then
    m.map (fun p => if p.1 == k then (p.1, p.2 ++ [v]) else p)
  else m ++ [(k, [v])]

/-- Helper for insertAndCoalesce: the new block was not merged with its
predecessor; try to coalesce with the successor, then insert.  `pre` holds
the blocks before the insertion index, `post` the blocks from it on. -/
def insertNoPrev (pre : List FB) (nb : FB) (post : List FB) : List FB :=
  match post with
  | nxt :: rest =>
    if nb.1 + nb.2 = nxt.1 then pre ++ (nb.1, nb.2 + nxt.2) :: rest
    else pre ++ nb :: nxt :: rest
  | [] => pre ++ [nb]

/-- FreeListAllocator.insertAndCoalesce, RBTreeAllocator.insertSortedAndCoalesce
and CAllocator.insertAndCoalesce (three textually identical private methods):
find the insertion index (first position whose address is not below the new
block's), merge with the predecessor when `prev.address + prev.size ==
newBlock.address`, otherwise merge with the successor when `newBlock.address
+ newBlock.size == next.address`, and insert when no merge with the
predecessor happened.  When the predecessor merge fires, the source's
successor check compares the merged block against itself (the splice index
was decremented), so no successor merge can follow it; the final
reference-equality test then skips the insertion.  Both behaviours are
reproduced here. -/
def insertAndCoalesce (fbs : List FB) (nb : FB) : List FB :=
  let i := (fbs.takeWhile (fun fb => fb.1 < nb.1)).length
  let pre := fbs.take i
  let post := fbs.drop i
  match pre.getLast? with
  | some prev =>
    if prev.1 + prev.2 = nb.1 then
      pre.dropLast ++ (prev.1, prev.2 + nb.2) :: post
    else insertNoPrev pre nb post
  | none => insertNoPrev pre nb post

/-! ## FreeListAllocator (src/src/core/allocators/FreeListAllocator.ts) -/

/-- State of a FreeListAllocator: the address-ordered free list, the
allocatedBlocks map, and the metrics counters the strategy maintains. -/
structure FLState where
  totalSize : Nat
  freeBlocks : List FB
  allocated : List (String × FB)
  totalAllocations : Nat
  totalDeallocations : Nat
deriving DecidableEq

namespace FreeListAllocator

/-- initialize(): one free block spanning the arena. -/
def init (cap : Nat) : FLState :=
  { totalSize := cap, freeBlocks := [(0, cap)], allocated := []
    totalAllocations := 0, totalDeallocations := 0 }

/-- First-fit search (findIndex of the first block with size >= request),
splitting the found block in place (address += size, size -= size) when it
is strictly larger, removing it otherwise.  Returns the allocated address
and the updated free list. -/
def firstFitGo (size : Nat) : List FB → Option (Nat × List FB)
  | [] => none
  | fb :: rest =>
    if size ≤ fb.2 then
      if size < fb.2 then some (fb.1, (fb.1 + size, fb.2 - size) :: rest)
      else some (fb.1, rest)
    else
      match firstFitGo size rest with
      | none => none
      | some (a, rest') => some (a, fb :: rest')

/-- FreeListAllocator.allocate. -/
def allocate (s : FLState) (id : String) (size : Nat) : Option FB × FLState :=
  match firstFitGo size s.freeBlocks with
  | none => (none, s)
  | some (addr, free') =>
    let blk : FB := (addr, size)
    (some blk,
     { s with freeBlocks := free'
              allocated := mapSet s.allocated id blk
              totalAllocations := s.totalAllocations + 1 })

/-- FreeListAllocator.deallocate. -/
def deallocate (s : FLState) (blockId : String) : Bool × FLState :=
  match mapGet s.allocated blockId with
  | none => (false, s)
  | some blk =>
    (true,
     { s with allocated := mapDelete s.allocated blockId
              freeBlocks := insertAndCoalesce s.freeBlocks blk
              totalDeallocations := s.totalDeallocations + 1 })

end FreeListAllocator

/-! ## RBTreeAllocator (best-fit scan; src/src/core/allocators/RBTreeAllocator.ts) -/

/-- State of an RBTreeAllocator: sortedFreeBlocks (the class's working free
list; the freeBlocks mirror it copies on every mutation is not duplicated
here), the allocatedBlocks map, and metrics counters. -/
structure RBState where
  totalSize : Nat
  sortedFreeBlocks : List FB
  allocated : List (String × FB)
  totalAllocations : Nat
  totalDeallocations : Nat
deriving DecidableEq

namespace RBTreeAllocator

/-- initialize(). -/
def init (cap : Nat) : RBState :=
  { totalSize := cap, sortedFreeBlocks := [(0, cap)], allocated := []
    totalAllocations := 0, totalDeallocations := 0 }

/-- The best-fit scan: smallest block with size >= request, first occurrence
winning ties (the source keeps the running best only on a strictly smaller
size).  Returns (index, block). -/
def bestFit (fbs : List FB) (size : Nat) : Option (Nat × FB) :=
  fbs.enum.foldl
    (fun best p =>
      match best with
      | none => if size ≤ p.2.2 then some p else none
      | some q => if size ≤ p.2.2 ∧ p.2.2 < q.2.2 then some p else some q)
    none

/-- RBTreeAllocator.allocate. -/
def allocate (s : RBState) (id : String) (size : Nat) : Option FB × RBState :=
  match bestFit s.sortedFreeBlocks size with
  | none => (none, s)
  | some (i, fb) =>
    let blk : FB := (fb.1, size)
    let free' :=
      if size < fb.2 then s.sortedFreeBlocks.set i (fb.1 + size, fb.2 - size)
      else s.sortedFreeBlocks.eraseIdx i
    (some blk,
     { s with sortedFreeBlocks := free'
              allocated := mapSet s.allocated id blk
              totalAllocations := s.totalAllocations + 1 })

/-- RBTreeAllocator.deallocate (insertSortedAndCoalesce is textually the
same procedure as FreeListAllocator.insertAndCoalesce). -/
def deallocate (s : RBState) (blockId : String) : Bool × RBState :=
  match mapGet s.allocated blockId with
  | none => (false, s)
  | some blk =>
    (true,
     { s with allocated := mapDelete s.allocated blockId
              sortedFreeBlocks := insertAndCoalesce s.sortedFreeBlocks blk
              totalDeallocations := s.totalDeallocations + 1 })

end RBTreeAllocator

/-! ## StackAllocator (LIFO; second class in src/src/core/allocators/RBTreeAllocator.ts's
source group, exported as StackAllocator) -/

/-- State of a StackAllocator: the stack of blocks with their ids in push
order, the bump offset currentTop, the allocatedBlocks map, and metrics
counters. -/
structure StackState where
  totalSize : Nat
  stack : List (String × FB)
  currentTop : Nat
  allocated : List (String × FB)
  totalAllocations : Nat
  totalDeallocations : Nat
deriving DecidableEq

namespace StackAllocator

/-- initialize(). -/
def init (cap : Nat) : StackState :=
  { totalSize := cap, stack := [], currentTop := 0, allocated := []
    totalAllocations := 0, totalDeallocations := 0 }

/-- The derived free-block list: one block from currentTop to the end of the
arena while space remains (updateFreeBlocks). -/
def freeBlocks (s : StackState) : List FB :=
  if 0 < s.totalSize - s.currentTop then
    [(s.currentTop, s.totalSize - s.currentTop)]
  else []

/-- StackAllocator.allocate: bump allocation, failing when
currentTop + size > totalSize. -/
def allocate (s : StackState) (id : String) (size : Nat) :
    Option FB × StackState :=
  if s.totalSize < s.currentTop + size then (none, s)
  else
    let blk : FB := (s.currentTop, size)
    (some blk,
     { s with stack := s.stack ++ [(id, blk)]
              currentTop := s.currentTop + size
              allocated := mapSet s.allocated id blk
              totalAllocations := s.totalAllocations + 1 })

/-- StackAllocator.deallocate: succeeds only when the id is the top of the
stack; every other call returns false without touching the state. -/
def deallocate (s : StackState) (blockId : String) : Bool × StackState :=
  match s.stack.getLast? with
  | none => (false, s)
  | some top =>
    if top.1 = blockId then
      (true,
       { s with stack := s.stack.dropLast
                currentTop := s.currentTop - top.2.2
                allocated := mapDelete s.allocated blockId
                totalDeallocations := s.totalDeallocations + 1 })
    else (false, s)

end StackAllocator

/-! ## PoolAllocator (src/src/core/allocators/PoolAllocator.ts) -/

/-- State of a PoolAllocator: the fixed block size, the block count, the
free slot indices (a JavaScript Set in insertion order; allocation takes
`values().next().value`, the oldest entry), the freeBlocks list, the
allocatedBlocks map, and metrics counters including wastedSpace. -/
structure PoolState where
  totalSize : Nat
  blockSize : Nat
  totalBlocks : Nat
  freeBlockIndices : List Nat
  freeBlocks : List FB
  allocated : List (String × FB)
  wastedSpace : Nat
  totalAllocations : Nat
  totalDeallocations : Nat
deriving DecidableEq

namespace PoolAllocator

/-- initialize() with the constructor parameters in effect (the state after
reset()): every slot free. -/
def init (cap B : Nat) : PoolState :=
  { totalSize := cap, blockSize := B, totalBlocks := cap / B
    freeBlockIndices := List.range (cap / B)
    freeBlocks := (List.range (cap / B)).map (fun i => (i * B, B))
    allocated := [], wastedSpace := 0
    totalAllocations := 0, totalDeallocations := 0 }

/-- The state of `new PoolAllocator(cap, B)` before any reset(): the base
constructor calls initialize() while blockSize and totalBlocks are still
undefined (so the fill loop `for (i = 0; i < this.totalBlocks; i++)` runs
zero times), and the subclass field initializer then re-assigns
freeBlockIndices to a fresh empty Set before the constructor body sets
blockSize and totalBlocks.  The pool therefore starts with no free slot. -/
def constructedState (cap B : Nat) : PoolState :=
  { totalSize := cap, blockSize := B, totalBlocks := cap / B
    freeBlockIndices := [], freeBlocks := []
    allocated := [], wastedSpace := 0
    totalAllocations := 0, totalDeallocations := 0 }

/-- PoolAllocator.allocate: reject requests above the fixed block size, pop
the first free slot index, consume a full blockSize bytes, and account the
internal padding in wastedSpace. -/
def allocate (s : PoolState) (id : String) (size : Nat) :
    Option FB × PoolState :=
  if s.blockSize < size then (none, s)
  else
    match s.freeBlockIndices with
    | [] => (none, s)
    | idx :: rest =>
      let blk : FB := (idx * s.blockSize, s.blockSize)
      (some blk,
       { s with freeBlockIndices := rest
                allocated := mapSet s.allocated id blk
                freeBlocks := s.freeBlocks.filter (fun b => !(b.1 == blk.1))
                wastedSpace := s.wastedSpace + (s.blockSize - size)
                totalAllocations := s.totalAllocations + 1 })

end PoolAllocator

/-! ## BuddyAllocator (second class in src/src/core/allocators/BaseAllocator.ts's
source group) -/

/-- State of a BuddyAllocator: the per-level free lists (a JavaScript Map
from level to an array of blocks, in key-insertion order), the freeBlocks
mirror rebuilt by updateFreeBlocksList, the allocatedBlocks map, and metrics
counters.  minBlockSize is the class constant 16; maxLevel =
log2(totalSize / minBlockSize). -/
structure BuddyState where
  totalSize : Nat
  minBlockSize : Nat
  maxLevel : Nat
  freeList : List (Nat × List FB)
  freeBlocks : List FB
  allocated : List (String × FB)
  wastedSpace : Nat
  totalAllocations : Nat
  totalDeallocations : Nat
deriving DecidableEq

namespace BuddyAllocator

/-- Fuel-driven floor binary logarithm (the fuel argument only bounds the
recursion; it is sufficient whenever fuel >= n). -/
def log2Fuel : Nat → Nat → Nat
  | 0, _ => 0
  | fuel + 1, n => if 2 ≤ n then log2Fuel fuel (n / 2) + 1 else 0

/-- Math.log2 as the allocator uses it: every call site passes a power of
two or an exact power-of-two quotient, on which the floor binary logarithm
(implemented structurally so proofs can evaluate it) coincides with the
float computation. -/
def log2 (n : Nat) : Nat := log2Fuel n n

/-- initialize() with maxLevel in effect (the state after reset()): one free
block of the full arena size, filed under maxLevel. -/
def init (cap : Nat) : BuddyState :=
  { totalSize := cap, minBlockSize := 16
    maxLevel := log2 (cap / 16)
    freeList := [(log2 (cap / 16), [(0, cap)])]
    freeBlocks := [(0, cap)]
    allocated := [], wastedSpace := 0
    totalAllocations := 0, totalDeallocations := 0 }

/-- Math.pow(2, Math.ceil(Math.log2 n)): the least power of two that is
>= n (for n >= 1; the n = 0 case is irrelevant after the max with
minBlockSize). -/
def ceilPow2 (n : Nat) : Nat :=
  if n ≤ 1 then 1 else 2 ^ (log2 (n - 1) + 1)

/-- The search loop of findOrSplitBlock, with the number of levels still to
inspect made an explicit (structural) counter: walk levels from targetLevel
up to maxLevel and pop (from the back, Array.pop) the first available
block.  Returns the level, the popped block and the updated free-list
map. -/
def findPopGo (fl : List (Nat × List FB)) :
    Nat → Nat → Option (Nat × FB × List (Nat × List FB))
  | 0, _ => none
  | count + 1, level =>
    match mapGet fl level with
    | some bs =>
      match bs.getLast? with
      | some b => some (level, b, mapSet fl level bs.dropLast)
      | none => findPopGo fl count (level + 1)
    | none => findPopGo fl count (level + 1)

/-- The search loop `for (level = targetLevel; level <= maxLevel; level++)`
of findOrSplitBlock: maxLevel + 1 - level iterations remain when the
counter stands at level. -/
def findPop (fl : List (Nat × List FB)) (level maxLevel : Nat) :
    Option (Nat × FB × List (Nat × List FB)) :=
  findPopGo fl (maxLevel + 1 - level) level

/-- The split loop of findOrSplitBlock, with the iteration count made an
explicit (structural) counter: each round decrements level, computes
buddySize = 2^(log2(totalSize) - level), pushes the buddy block
(block.address + buddySize, buddySize) onto that level's free list, and
shrinks the carried block to buddySize. -/
def splitDownGo (total addr : Nat) :
    Nat → Nat → Nat → List (Nat × List FB) → Nat × List (Nat × List FB)
  | 0, _, curSize, fl => (curSize, fl)
  | steps + 1, level, _, fl =>
    let buddySize := 2 ^ (log2 total - (level - 1))
    splitDownGo total addr steps (level - 1) buddySize
      (mapPush fl (level - 1) (addr + buddySize, buddySize))

/-- The split loop `while (level > targetLevel)` of findOrSplitBlock: it
runs level - target times.  Returns the final block size together with the
updated map. -/
def splitDown (total addr : Nat) (fl : List (Nat × List FB))
    (level target curSize : Nat) : Nat × List (Nat × List FB) :=
  splitDownGo total addr (level - target) level curSize fl

/-- BuddyAllocator.findOrSplitBlock. -/
def findOrSplitBlock (s : BuddyState) (target : Nat) :
    Option (FB × List (Nat × List FB)) :=
  match findPop s.freeList target s.maxLevel with
  | none => none
  | some (lvl, b, fl) =>
    let r := splitDown s.totalSize b.1 fl lvl target b.2
    some ((b.1, r.1), r.2)

/-- BuddyAllocator.updateFreeBlocksList: flatten the per-level lists in map
order and sort by address (Array.sort is stable). -/
def updateFreeBlocksList (fl : List (Nat × List FB)) : List FB :=
  ((fl.map Prod.snd).flatten).mergeSort (fun a b => decide (a.1 ≤ b.1))

/-- BuddyAllocator.allocate: round the request up to a power of two (floored
at minBlockSize), locate the level log2(totalSize / requiredSize), reject
out-of-range levels, then find or split a free block.  The allocated block
is recorded with the rounded size, and the rounding slack is added to
wastedSpace. -/
def allocate (s : BuddyState) (id : String) (size : Nat) :
    Option FB × BuddyState :=
  let requiredSize := max s.minBlockSize (ceilPow2 size)
  if s.totalSize < requiredSize then (none, s)
  else
    let level := log2 (s.totalSize / requiredSize)
    if s.maxLevel < level then (none, s)
    else
      match findOrSplitBlock s level with
      | none => (none, s)
      | some (b, fl) =>
        let allocatedBlock : FB := (b.1, requiredSize)
        (some allocatedBlock,
         { s with freeList := fl
                  freeBlocks := updateFreeBlocksList fl
                  allocated := mapSet s.allocated id allocatedBlock
                  wastedSpace := s.wastedSpace + (requiredSize - size)
                  totalAllocations := s.totalAllocations + 1 })

/-- BuddyAllocator.mergeWithBuddy, with the recursion depth bounded by an
explicit (structural) counter: the buddy address is address XOR size; if a
block with that address and the same size sits at this level, splice it out
and recurse one level up with the doubled block (or, at maxLevel, push the
doubled block at maxLevel + 1); otherwise insert the block at this level.
The recursion fires only while level < maxLevel, so a counter starting at
maxLevel + 1 - level never reaches the (unreachable) zero case before the
recursion stops by itself. -/
def mergeWithBuddyGo (maxLevel : Nat) :
    Nat → List (Nat × List FB) → FB → Nat → List (Nat × List FB)
  | 0, fl, _, _ => fl
  | fuel + 1, fl, block, level =>
    let buddyAddress := block.1 ^^^ block.2
    match mapGet fl level with
    | none => mapSet fl level [block]
    | some blocks =>
      match blocks.findIdx? (fun b => b.1 == buddyAddress && b.2 == block.2) with
      | none => mapSet fl level (blocks ++ [block])
      | some i =>
        let buddy := blocks.getD i (0, 0)
        let merged : FB := (min block.1 buddy.1, block.2 * 2)
        let fl' := mapSet fl level (blocks.eraseIdx i)
        if level < maxLevel then mergeWithBuddyGo maxLevel fuel fl' merged (level + 1)
        else mapPush fl' (level + 1) merged

/-- BuddyAllocator.mergeWithBuddy. -/
def mergeWithBuddy (maxLevel : Nat) (fl : List (Nat × List FB)) (block : FB)
    (level : Nat) : List (Nat × List FB) :=
  mergeWithBuddyGo maxLevel (maxLevel + 1 - level) fl block level

/-- BuddyAllocator.deallocate. -/
def deallocate (s : BuddyState) (blockId : String) : Bool × BuddyState :=
  match mapGet s.allocated blockId with
  | none => (false, s)
  | some b =>
    let level := log2 (s.totalSize / b.2)
    let fl := mergeWithBuddy s.maxLevel s.freeList b level
    (true,
     { s with allocated := mapDelete s.allocated blockId
              freeList := fl
              freeBlocks := updateFreeBlocksList fl
              totalDeallocations := s.totalDeallocations + 1 })

end BuddyAllocator

/-! ## CAllocator (size-classed general-purpose strategy;
src/src/core/allocators/CAllocator.ts) -/

/-- The SIZE_CLASSES constant of CAllocator. -/
def SIZE_CLASSES : List Nat := [16, 32, 64, 128, 256, 512, 1024, 2048, 4096, 8192]

/-- State of a CAllocator: the general free list, the per-size-class free
lists (a Map in key-insertion order), the allocatedBlocks map (each entry
stored with its header-inclusive size), and metrics counters. -/
structure CState where
  totalSize : Nat
  freeBlocks : List FB
  freeListBySizeClass : List (Nat × List FB)
  allocated : List (String × FB)
  wastedSpace : Nat
  totalAllocations : Nat
  totalDeallocations : Nat
deriving DecidableEq

namespace CAllocator

/-- initialize() (the state after reset()): one spanning free block and an
empty list per size class. -/
def init (cap : Nat) : CState :=
  { totalSize := cap, freeBlocks := [(0, cap)]
    freeListBySizeClass := SIZE_CLASSES.map (fun sc => (sc, []))
    allocated := [], wastedSpace := 0
    totalAllocations := 0, totalDeallocations := 0 }

/-- CAllocator.findSizeClass: the first size class >= size (the source's
`|| null` fallback fires only when find is undefined, as no class is 0). -/
def findSizeClass (size : Nat) : Option Nat :=
  SIZE_CLASSES.find? (fun sc => decide (size ≤ sc))

/-- CAllocator.findInSizeClass: pop (from the back) a block of the matching
class list, if any.  Returns the block and the updated class map. -/
def findInSizeClass (classes : List (Nat × List FB)) (sizeClass : Option Nat) :
    Option FB × List (Nat × List FB) :=
  match sizeClass with
  | none => (none, classes)
  | some sc =>
    match mapGet classes sc with
    | none => (none, classes)
    | some bs =>
      match bs.getLast? with
      | none => (none, classes)
      | some b => (some b, mapSet classes sc bs.dropLast)

/-- CAllocator.findInFreeList: first fit over the general free list; when
the found block is strictly larger, the remainder is pushed to the end of
the list and the found block is shrunk to the requested size before being
spliced out. -/
def findInFreeList (fbs : List FB) (size : Nat) : Option FB × List FB :=
  match fbs.findIdx? (fun b => decide (size ≤ b.2)) with
  | none => (none, fbs)
  | some i =>
    let fb := fbs.getD i (0, 0)
    if size < fb.2 then
      (some (fb.1, size), fbs.eraseIdx i ++ [(fb.1 + size, fb.2 - size)])
    else (some fb, fbs.eraseIdx i)

/-- CAllocator.allocate: add the 16-byte header to the request, try the
matching size class first, then first fit on the general free list.  The
allocatedBlocks entry records the header-inclusive size at the popped
block's address (regardless of that block's own recorded size); the header
overhead is added to wastedSpace. -/
def allocate (s : CState) (id : String) (size : Nat) : Option FB × CState :=
  let total := size + 16
  let sizeClass := findSizeClass total
  let r1 := findInSizeClass s.freeListBySizeClass sizeClass
  match r1.1 with
  | some block =>
    (some (block.1, size),
     { s with freeListBySizeClass := r1.2
              allocated := mapSet s.allocated id (block.1, total)
              wastedSpace := s.wastedSpace + (total - size)
              totalAllocations := s.totalAllocations + 1 })
  | none =>
    let r2 := findInFreeList s.freeBlocks total
    match r2.1 with
    | none => (none, s)
    | some block =>
      (some (block.1, size),
       { s with freeBlocks := r2.2
                allocated := mapSet s.allocated id (block.1, total)
                wastedSpace := s.wastedSpace + (total - size)
                totalAllocations := s.totalAllocations + 1 })

/-- CAllocator.deallocate: push the freed block (header-inclusive size) onto
its size-class list when `findSizeClass` names a class present in the map,
otherwise insert-and-coalesce into the general free list. -/
def deallocate (s : CState) (blockId : String) : Bool × CState :=
  match mapGet s.allocated blockId with
  | none => (false, s)
  | some b =>
    match findSizeClass b.2 with
    | some sc =>
      if s.freeListBySizeClass.any (fun p => p.1 == sc) then
        (true,
         { s with freeListBySizeClass := mapPush s.freeListBySizeClass sc b
                  allocated := mapDelete s.allocated blockId
                  totalDeallocations := s.totalDeallocations + 1 })
      else
        (true,
         { s with freeBlocks := insertAndCoalesce s.freeBlocks b
                  allocated := mapDelete s.allocated blockId
                  totalDeallocations := s.totalDeallocations + 1 })
    | none =>
      (true,
       { s with freeBlocks := insertAndCoalesce s.freeBlocks b
                allocated := mapDelete s.allocated blockId
                totalDeallocations := s.totalDeallocations + 1 })

end CAllocator

/-! ## SmartEdgeAlloc (src/src/core/simulation/SmartEdgeAlloc.ts) and the
engine's allocator inventory (src/src/core/simulation/SimulationEngine.ts) -/

/-- The AllocatorType enum, in declaration order (the order Object.values
iterates). -/
inductive AllocatorType where
  | linear
  | stack
  | pool
  | freeList
  | rbTree
  | buddy
  | cAllocator
  | smartEdgeAlloc
deriving DecidableEq

/-- The WorkloadType enum. -/
inductive WorkloadType where
  | random
  | uniformSmall
  | uniformLarge
  | lifo
  | shortLived
  | longLived
  | powerOfTwo
deriving DecidableEq

/-- Object.values(AllocatorType), the iteration order of both scoring
loops. -/
def allocatorTypeValues : List AllocatorType :=
  [.linear, .stack, .pool, .freeList, .rbTree, .buddy, .cAllocator,
   .smartEdgeAlloc]

/-- The AllocatorMetrics record, with the numeric fields as rationals. -/
structure AllocatorMetrics where
  totalAllocations : ℚ
  totalDeallocations : ℚ
  currentMemoryUsage : ℚ
  peakMemoryUsage : ℚ
  fragmentation : ℚ
  averageAllocationTime : ℚ
  averageDeallocationTime : ℚ
  wastedSpace : ℚ
  successRate : ℚ
deriving DecidableEq

/-- An AllocatorScore entry.  The reasoning-trail strings carried alongside
in the source are presentation-only: neither the scores nor the ordering
depend on them, so they are not modelled. -/
structure AllocatorScore where
  allocator : AllocatorType
  score : ℚ
deriving DecidableEq

namespace SmartEdgeAlloc

/-- The static WORKLOAD_WEIGHTS base-affinity table.  Every (pattern,
strategy) pair is present and nonzero, so the source's `|| 0.5` fallback is
dead code and the lookup is this total function. -/
def workloadWeights (w : WorkloadType) (a : AllocatorType) : ℚ :=
  match w, a with
  | .random, .freeList => 0.8
  | .random, .cAllocator => 0.9
  | .random, .rbTree => 0.7
  | .random, .buddy => 0.6
  | .random, .pool => 0.4
  | .random, .stack => 0.3
  | .random, .linear => 0.2
  | .random, .smartEdgeAlloc => 1.0
  | .uniformSmall, .pool => 0.95
  | .uniformSmall, .buddy => 0.8
  | .uniformSmall, .cAllocator => 0.7
  | .uniformSmall, .freeList => 0.6
  | .uniformSmall, .rbTree => 0.5
  | .uniformSmall, .stack => 0.4
  | .uniformSmall, .linear => 0.3
  | .uniformSmall, .smartEdgeAlloc => 1.0
  | .uniformLarge, .linear => 0.9
  | .uniformLarge, .buddy => 0.8
  | .uniformLarge, .freeList => 0.7
  | .uniformLarge, .rbTree => 0.7
  | .uniformLarge, .cAllocator => 0.6
  | .uniformLarge, .stack => 0.5
  | .uniformLarge, .pool => 0.2
  | .uniformLarge, .smartEdgeAlloc => 1.0
  | .lifo, .stack => 0.95
  | .lifo, .linear => 0.8
  | .lifo, .pool => 0.6
  | .lifo, .freeList => 0.5
  | .lifo, .cAllocator => 0.5
  | .lifo, .rbTree => 0.4
  | .lifo, .buddy => 0.4
  | .lifo, .smartEdgeAlloc => 1.0
  | .shortLived, .stack => 0.9
  | .shortLived, .linear => 0.85
  | .shortLived, .pool => 0.8
  | .shortLived, .freeList => 0.6
  | .shortLived, .cAllocator => 0.5
  | .shortLived, .rbTree => 0.5
  | .shortLived, .buddy => 0.4
  | .shortLived, .smartEdgeAlloc => 1.0
  | .longLived, .freeList => 0.9
  | .longLived, .rbTree => 0.85
  | .longLived, .cAllocator => 0.8
  | .longLived, .buddy => 0.7
  | .longLived, .linear => 0.6
  | .longLived, .pool => 0.5
  | .longLived, .stack => 0.3
  | .longLived, .smartEdgeAlloc => 1.0
  | .powerOfTwo, .buddy => 0.95
  | .powerOfTwo, .pool => 0.8
  | .powerOfTwo, .freeList => 0.7
  | .powerOfTwo, .rbTree => 0.7
  | .powerOfTwo, .cAllocator => 0.6
  | .powerOfTwo, .stack => 0.4
  | .powerOfTwo, .linear => 0.3
  | .powerOfTwo, .smartEdgeAlloc => 1.0

/-- The memory-efficiency expression
`usage / (usage + waste || 1)`: the JavaScript `|| 1` replaces a zero
denominator by 1. -/
def memoryEfficiency (m : AllocatorMetrics) : ℚ :=
  m.currentMemoryUsage /
    (if m.currentMemoryUsage + m.wastedSpace = 0 then 1
     else m.currentMemoryUsage + m.wastedSpace)

/-- Math.max(0, Math.min(1, x)). -/
def clamp01 (x : ℚ) : ℚ := max 0 (min 1 x)

/-- The metric adjustments of selectOptimalAllocator: fragmentation
thresholds 30/10 with factors 0.6/1.2, success-rate thresholds 95/98 with
0.7/1.15, memory-efficiency thresholds 0.9/0.7 with 1.2/0.8, and
allocation-latency thresholds 0.1/0.5 with 1.1/0.9. -/
def selAdjust (base : ℚ) (m : AllocatorMetrics) : ℚ :=
  let a1 := if 30 < m.fragmentation then base * 0.6
            else if m.fragmentation < 10 then base * 1.2 else base
  let a2 := if m.successRate < 95 then a1 * 0.7
            else if 98 < m.successRate then a1 * 1.15 else a1
  let eff := memoryEfficiency m
  let a3 := if 0.9 < eff then a2 * 1.2
            else if eff < 0.7 then a2 * 0.8 else a2
  if m.averageAllocationTime < 0.1 then a3 * 1.1
  else if 0.5 < m.averageAllocationTime then a3 * 0.9 else a3

/-- The metric adjustments of getAllocatorScores: fragmentation thresholds
50/10 with factors 0.7/1.1, success-rate thresholds 90/95 with 0.8/1.05,
memory-efficiency thresholds 0.9/0.7 with 1.1/0.9, and allocation-latency
thresholds 0.1/1.0 with 1.05/0.95. -/
def getAdjust (base : ℚ) (m : AllocatorMetrics) : ℚ :=
  let a1 := if 50 < m.fragmentation then base * 0.7
            else if m.fragmentation < 10 then base * 1.1 else base
  let a2 := if m.successRate < 90 then a1 * 0.8
            else if 95 < m.successRate then a1 * 1.05 else a1
  let eff := memoryEfficiency m
  let a3 := if 0.9 < eff then a2 * 1.1
            else if eff < 0.7 then a2 * 0.9 else a2
  if m.averageAllocationTime < 0.1 then a3 * 1.05
  else if 1 < m.averageAllocationTime then a3 * 0.95 else a3

/-- The clamped per-strategy score computed inside selectOptimalAllocator. -/
def selScore (w : WorkloadType) (mm : AllocatorType → Option AllocatorMetrics)
    (a : AllocatorType) : ℚ :=
  match mm a with
  | none => clamp01 (workloadWeights w a)
  | some m => clamp01 (selAdjust (workloadWeights w a) m)

/-- The clamped per-strategy score computed inside getAllocatorScores. -/
def getScore (w : WorkloadType) (mm : AllocatorType → Option AllocatorMetrics)
    (a : AllocatorType) : ℚ :=
  match mm a with
  | none => clamp01 (workloadWeights w a)
  | some m => clamp01 (getAdjust (workloadWeights w a) m)

/-- The comparator `(a, b) => b.score - a.score`: a may precede b exactly
when b.score <= a.score; Array.prototype.sort is stable, as is mergeSort. -/
def scoreDesc (a b : AllocatorScore) : Bool := decide (b.score ≤ a.score)

/-- SmartEdgeAlloc.selectOptimalAllocator: score every enum value in
iteration order, sort descending by score (stable) and return the first
entry (`scores[0]`; the list is never empty, hence modelled with head?). -/
def selectOptimalAllocator (w : WorkloadType)
    (mm : AllocatorType → Option AllocatorMetrics) : Option AllocatorScore :=
  ((allocatorTypeValues.map (fun a => ⟨a, selScore w mm a⟩ : AllocatorType →
      AllocatorScore)).mergeSort scoreDesc).head?

/-- SmartEdgeAlloc.getAllocatorScores: same loop shape but with the
getAdjust thresholds and factors, returning the whole sorted list. -/
def getAllocatorScores (w : WorkloadType)
    (mm : AllocatorType → Option AllocatorMetrics) : List AllocatorScore :=
  (allocatorTypeValues.map (fun a => ⟨a, getScore w mm a⟩ : AllocatorType →
      AllocatorScore)).mergeSort scoreDesc

end SmartEdgeAlloc

namespace SimulationEngine

/-- The allocator instances SimulationEngine.initializeAllocators creates:
the seven concrete strategies, keyed by type.  No instance exists for
AllocatorType.smartEdgeAlloc, and getAllocatorMetrics therefore never
produces a metrics entry for it. -/
def engineAllocatorTypes : List AllocatorType :=
  [.linear, .stack, .pool, .freeList, .rbTree, .buddy, .cAllocator]

end SimulationEngine

/-! ## Concrete runs used by the claims -/

/-- CAllocator, capacity 1024, after allocate(A, 4); allocate(B, 4);
deallocate(A): the freed 20-byte block [0, 20) (header-inclusive) sits in
size class 32. -/
def c1StateBeforeC : CState :=
  (CAllocator.deallocate
    (CAllocator.allocate
      (CAllocator.allocate (CAllocator.init 1024) "A" 4).2 "B" 4).2 "A").2

/-- ... then allocate(C, 16): the request plus header is 32 bytes, served
from size class 32 by popping the 20-byte block at address 0. -/
def c1StateAfterC : CState := (CAllocator.allocate c1StateBeforeC "C" 16).2

/-- BuddyAllocator, capacity 1024, after allocate(A, 100). -/
def c2BuddyState : BuddyState :=
  (BuddyAllocator.allocate (BuddyAllocator.init 1024) "A" 100).2

/-- Total bytes accounted by a strategy: allocated sizes plus free sizes. -/
def accountedBytes (alloc : List (String × FB)) (free : List FB) : Nat :=
  sumSizes (alloc.map Prod.snd) + sumSizes free

/-! ## Claim theorems -/

/-- C1: the claim states that no two blocks of the allocated-block set ever
have intersecting [address, address + size) ranges, for every strategy and
every allocate/deallocate/reset sequence, and in particular for the C-style
allocator when a size-class hit returns a block whose recorded size differs
from the header-inclusive request size.  The code violates exactly that
case: after allocate(A,4); allocate(B,4); deallocate(A); allocate(C,16) on a
(re)initialized CAllocator of capacity 1024, the size-class pop hands back
the 20-byte block [0,20) but the allocator records C as 32 bytes at address
0, so the allocated blocks B = [20,40) and C = [0,32) overlap. -/
theorem C1_callocator_allocated_blocks_overlap :
    mapGet c1StateBeforeC.freeListBySizeClass 32 = some [(0, 20)] ∧
    mapGet c1StateAfterC.allocated "B" = some (20, 20) ∧
    mapGet c1StateAfterC.allocated "C" = some (0, 32) ∧
    blocksOverlap (20, 20) (0, 32) := by
  decide

unseal List.merge List.mergeSort in
/-- C2: the claim states sum(allocated sizes) + sum(free sizes) =
arenaCapacity for FreeList, BestFit, GeneralPurpose and Buddy after every
allocate/deallocate sequence.  A single allocate(100) on a Buddy arena of
capacity 1024 already breaks it: the inverted level bookkeeping leaves the
allocated 128-byte block plus free buddies of only 32 + 64 + 128 bytes, so
352 of 1024 bytes are accounted. -/
theorem C2_buddy_conservation_fails :
    c2BuddyState.totalSize = 1024 ∧
    accountedBytes c2BuddyState.allocated c2BuddyState.freeBlocks = 352 ∧
    ¬ accountedBytes c2BuddyState.allocated c2BuddyState.freeBlocks =
        c2BuddyState.totalSize := by
  decide

unseal List.merge List.mergeSort in
/-- C3: the claim (Scenario B) expects allocate(100) on a fresh Buddy arena
of 1024 (min block 16) to return {address 0, size 128} and to leave free
buddies of sizes 512, 256 and 128 at addresses 512, 256 and 128.  The code
does return {0, 128}, but the split walks the inverted level ladder and
leaves free buddies of sizes 32, 64 and 128 at addresses 32, 64 and 128
instead. -/
theorem C3_buddy_split_wrong_buddies :
    (BuddyAllocator.allocate (BuddyAllocator.init 1024) "A" 100).1 =
      some (0, 128) ∧
    c2BuddyState.freeBlocks = [(32, 32), (64, 64), (128, 128)] ∧
    ¬ c2BuddyState.freeBlocks = [(128, 128), (256, 256), (512, 512)] := by
  decide

unseal List.merge List.mergeSort in
/-- C6: the claim states that every strategy fails immediately (no block, no
state change) whenever currentUsage + requestedSize > arenaCapacity.  No
allocator ever calls the base-class isOutOfMemory check, and the Buddy
allocator even succeeds in that situation: after allocate(A,100) the usage
is 128, yet allocate(B,1000) (128 + 1000 > 1024) succeeds and returns
{address 128, size 1024}, a block reaching past the arena end. -/
theorem C6_buddy_allocates_beyond_capacity :
    sumSizes (c2BuddyState.allocated.map Prod.snd) = 128 ∧
    c2BuddyState.totalSize = 1024 ∧
    c2BuddyState.totalSize < 128 + 1000 ∧
    (BuddyAllocator.allocate c2BuddyState "B" 1000).1 = some (128, 1024) := by
  decide

/-- C7: the claim (Scenario D) says a Pool strategy constructed with
blockSize 64 rejects allocate(100) and serves allocate(50) from a full
64-byte slot wasting 14 bytes.  A literally fresh instance violates the
second half: initialize() runs from the base constructor before blockSize
and totalBlocks are assigned, and the subclass field initializer then
clears freeBlockIndices, so the just-constructed pool has no free slot and
allocate(50) returns null.  After reset() the claimed behaviour holds, as
the remaining conjuncts evaluate. -/
theorem C7_pool_fresh_fails_reset_behaves :
    PoolAllocator.allocate (PoolAllocator.constructedState 1024 64) "A" 50 =
      (none, PoolAllocator.constructedState 1024 64) ∧
    PoolAllocator.allocate (PoolAllocator.init 1024 64) "A" 100 =
      (none, PoolAllocator.init 1024 64) ∧
    (PoolAllocator.allocate (PoolAllocator.init 1024 64) "A" 50).1 =
      some (0, 64) ∧
    (PoolAllocator.allocate (PoolAllocator.init 1024 64) "A" 50).2.wastedSpace =
      (PoolAllocator.init 1024 64).wastedSpace + 14 := by
  decide

unseal List.merge List.mergeSort in
/-- C4 counterexample: the claim covers every coalescing strategy
(FreeList, BestFit, GeneralPurpose, Buddy), but allocate(100) followed by
deallocate of that only outstanding block does not restore one spanning
free block on Buddy (three free blocks remain: the half-merged 256-byte
block plus the stray 32- and 64-byte buddies) nor on the GeneralPurpose
allocator (the freed header-inclusive 116-byte block is parked in size
class 128, leaving the general free list at [(116, 908)]). -/
theorem C4_counterexample_buddy_gp_roundtrip :
    (BuddyAllocator.deallocate c2BuddyState "A").2.freeBlocks =
      [(0, 256), (32, 32), (64, 64)] ∧
    ¬ (BuddyAllocator.deallocate c2BuddyState "A").2.freeBlocks = [(0, 1024)] ∧
    (CAllocator.deallocate
        (CAllocator.allocate (CAllocator.init 1024) "A" 100).2 "A").2.freeBlocks =
      [(116, 908)] ∧
    ¬ (CAllocator.deallocate
        (CAllocator.allocate (CAllocator.init 1024) "A" 100).2 "A").2.freeBlocks =
      [(0, 1024)] ∧
    mapGet (CAllocator.deallocate
        (CAllocator.allocate (CAllocator.init 1024) "A" 100).2 "A").2.freeListBySizeClass
      128 = some [(0, 116)] := by
  decide

/-- insertAndCoalesce of the deallocated block (0, sz) into the remainder
free list [(sz, r)]: the successor merge restores one block. -/
theorem iac_singleton (sz r : Nat) :
    insertAndCoalesce [(sz, r)] (0, sz) = [(0, sz + r)] := by
  simp [insertAndCoalesce, insertNoPrev, List.takeWhile]

/-- insertAndCoalesce into an empty free list just inserts. -/
theorem iac_nil (b : FB) : insertAndCoalesce [] b = [b] := by
  simp [insertAndCoalesce, insertNoPrev]

/-- FreeList single-allocation round trip, in both the split and the
exact-fit case. -/
theorem fl_roundtrip (cap sz : Nat) (id : String) (h2 : sz ≤ cap) :
    (FreeListAllocator.deallocate
        (FreeListAllocator.allocate (FreeListAllocator.init cap) id sz).2
        id).2.freeBlocks = [(0, cap)] ∧
    (FreeListAllocator.deallocate
        (FreeListAllocator.allocate (FreeListAllocator.init cap) id sz).2
        id).2.allocated = [] := by
  by_cases hlt : sz < cap
  · have halloc : FreeListAllocator.allocate (FreeListAllocator.init cap) id sz
        = (some (0, sz),
           { totalSize := cap, freeBlocks := [(sz, cap - sz)],
             allocated := [(id, (0, sz))], totalAllocations := 1,
             totalDeallocations := 0 }) := by
      simp [FreeListAllocator.allocate, FreeListAllocator.init,
        FreeListAllocator.firstFitGo, if_pos h2, if_pos hlt, mapSet]
    rw [halloc]
    have hsum : sz + (cap - sz) = cap := by omega
    simp [FreeListAllocator.deallocate, mapGet, mapDelete, iac_singleton,
      hsum, List.filter]
  · have halloc : FreeListAllocator.allocate (FreeListAllocator.init cap) id sz
        = (some (0, sz),
           { totalSize := cap, freeBlocks := [],
             allocated := [(id, (0, sz))], totalAllocations := 1,
             totalDeallocations := 0 }) := by
      simp [FreeListAllocator.allocate, FreeListAllocator.init,
        FreeListAllocator.firstFitGo, if_pos h2, if_neg hlt, mapSet]
    rw [halloc]
    have hEq : sz = cap := by omega
    simp [FreeListAllocator.deallocate, mapGet, mapDelete, iac_nil,
      List.filter, hEq]

/-- BestFit single-allocation round trip, in both the split and the
exact-fit case. -/
theorem rb_roundtrip (cap sz : Nat) (id : String) (h2 : sz ≤ cap) :
    (RBTreeAllocator.deallocate
        (RBTreeAllocator.allocate (RBTreeAllocator.init cap) id sz).2
        id).2.sortedFreeBlocks = [(0, cap)] ∧
    (RBTreeAllocator.deallocate
        (RBTreeAllocator.allocate (RBTreeAllocator.init cap) id sz).2
        id).2.allocated = [] := by
  have hbf : RBTreeAllocator.bestFit [(0, cap)] sz = some (0, (0, cap)) := by
    simp [RBTreeAllocator.bestFit, List.enum, List.enumFrom, if_pos h2]
  by_cases hlt : sz < cap
  · have halloc : RBTreeAllocator.allocate (RBTreeAllocator.init cap) id sz
        = (some (0, sz),
           { totalSize := cap, sortedFreeBlocks := [(sz, cap - sz)],
             allocated := [(id, (0, sz))], totalAllocations := 1,
             totalDeallocations := 0 }) := by
      simp [RBTreeAllocator.allocate, RBTreeAllocator.init, hbf,
        if_pos hlt, mapSet, List.set]
    rw [halloc]
    have hsum : sz + (cap - sz) = cap := by omega
    simp [RBTreeAllocator.deallocate, mapGet, mapDelete, iac_singleton,
      hsum, List.filter]
  · have halloc : RBTreeAllocator.allocate (RBTreeAllocator.init cap) id sz
        = (some (0, sz),
           { totalSize := cap, sortedFreeBlocks := [],
             allocated := [(id, (0, sz))], totalAllocations := 1,
             totalDeallocations := 0 }) := by
      simp [RBTreeAllocator.allocate, RBTreeAllocator.init, hbf,
        if_neg hlt, mapSet, List.eraseIdx]
    rw [halloc]
    have hEq : sz = cap := by omega
    simp [RBTreeAllocator.deallocate, mapGet, mapDelete, iac_nil,
      List.filter, hEq]

/-- C4 (amended): for the FreeList and BestFit strategies, allocating one
request and immediately deallocating that only outstanding block restores
the free-block set to exactly one block spanning the full capacity (and the
allocated set to empty); in particular Scenario A holds for FreeList with
capacity 1024 and size 100: the allocation returns {address 0, size 100},
the free list becomes [(100, 924)], and the deallocation returns it to
[(0, 1024)].  (Buddy and GeneralPurpose, also named by the claim, do not:
see the counterexample.) -/
theorem C4_freelist_bestfit_roundtrip (cap sz : Nat) (id : String)
    (h1 : 0 < sz) (h2 : sz ≤ cap) :
    (FreeListAllocator.deallocate
        (FreeListAllocator.allocate (FreeListAllocator.init cap) id sz).2
        id).2.freeBlocks = [(0, cap)] ∧
    (FreeListAllocator.deallocate
        (FreeListAllocator.allocate (FreeListAllocator.init cap) id sz).2
        id).2.allocated = [] ∧
    (RBTreeAllocator.deallocate
        (RBTreeAllocator.allocate (RBTreeAllocator.init cap) id sz).2
        id).2.sortedFreeBlocks = [(0, cap)] ∧
    (RBTreeAllocator.deallocate
        (RBTreeAllocator.allocate (RBTreeAllocator.init cap) id sz).2
        id).2.allocated = [] ∧
    (FreeListAllocator.allocate (FreeListAllocator.init 1024) "A" 100).1 =
      some (0, 100) ∧
    (FreeListAllocator.allocate (FreeListAllocator.init 1024) "A" 100).2.freeBlocks =
      [(100, 924)] ∧
    (FreeListAllocator.deallocate
        (FreeListAllocator.allocate (FreeListAllocator.init 1024) "A" 100).2
        "A").2.freeBlocks = [(0, 1024)] := by
  obtain ⟨hf1, hf2⟩ := fl_roundtrip cap sz id h2
  obtain ⟨hr1, hr2⟩ := rb_roundtrip cap sz id h2
  exact ⟨hf1, hf2, hr1, hr2, by decide, by decide, by decide⟩

/-- C4 witness: the round trip evaluated at capacity 1024, size 100. -/
theorem C4_witness :
    (FreeListAllocator.deallocate
        (FreeListAllocator.allocate (FreeListAllocator.init 1024) "W" 100).2
        "W").2.freeBlocks = [(0, 1024)] :=
  (C4_freelist_bestfit_roundtrip 1024 100 "W" (by decide) (by decide)).1

/-- StackAllocator state after allocate(A, 10); allocate(B, 20) on capacity
1024 (Scenario C). -/
def c5AfterAB : StackState :=
  (StackAllocator.allocate
    (StackAllocator.allocate (StackAllocator.init 1024) "A" 10).2 "B" 20).2

/-- C5: deallocating any id other than the top of the stack returns false
and leaves the whole state (stack, offset, allocated map, derived free
blocks, metrics counters) untouched; deallocating the top id always
succeeds, so strict reverse allocation order always succeeds; and Scenario
C evaluates as claimed: with A(10) then B(20) outstanding, deallocate(A) is
a rejected no-op, then deallocate(B) and deallocate(A) both succeed. -/
theorem C5_stack_lifo_discipline (s : StackState) (blockId : String)
    (h : s.stack.getLast?.map Prod.fst ≠ some blockId) :
    StackAllocator.deallocate s blockId = (false, s) ∧
    (∀ (t : StackState) (id : String) (b : FB),
      t.stack.getLast? = some (id, b) →
      (StackAllocator.deallocate t id).1 = true) ∧
    (StackAllocator.deallocate c5AfterAB "A" = (false, c5AfterAB) ∧
     (StackAllocator.deallocate c5AfterAB "B").1 = true ∧
     (StackAllocator.deallocate
        (StackAllocator.deallocate c5AfterAB "B").2 "A").1 = true) := by
  refine ⟨?_, ?_, by decide, by decide, by decide⟩
  · rcases hl : s.stack.getLast? with _ | ⟨tid, b⟩
    · simp [StackAllocator.deallocate, hl]
    · have hne : tid ≠ blockId := by
        simp [hl] at h
        exact h
      simp [StackAllocator.deallocate, hl, hne]
  · intro t id b ht
    simp [StackAllocator.deallocate, ht]

/-- C5 witness: the non-top rejection applied to the Scenario C state and
id A (B is on top). -/
theorem C5_witness :
    StackAllocator.deallocate c5AfterAB "A" = (false, c5AfterAB) :=
  (C5_stack_lifo_discipline c5AfterAB "A" (by decide)).1

/-- The descending-score comparator is transitive. -/
theorem scoreDesc_trans (a b c : AllocatorScore)
    (hab : SmartEdgeAlloc.scoreDesc a b = true)
    (hbc : SmartEdgeAlloc.scoreDesc b c = true) :
    SmartEdgeAlloc.scoreDesc a c = true := by
  simp only [SmartEdgeAlloc.scoreDesc, decide_eq_true_eq] at *
  exact le_trans hbc hab

/-- The descending-score comparator is total. -/
theorem scoreDesc_total (a b : AllocatorScore) :
    (SmartEdgeAlloc.scoreDesc a b || SmartEdgeAlloc.scoreDesc b a) = true := by
  simp only [SmartEdgeAlloc.scoreDesc, Bool.or_eq_true, decide_eq_true_eq]
  exact le_total b.score a.score

/-- Math.max(0, Math.min(1, x)) lies in [0, 1] for every rational x. -/
theorem clamp01_mem (x : ℚ) :
    0 ≤ SmartEdgeAlloc.clamp01 x ∧ SmartEdgeAlloc.clamp01 x ≤ 1 :=
  ⟨le_max_left 0 _, max_le (by norm_num) (min_le_left 1 x)⟩

/-- Every score getAllocatorScores computes is clamped into [0, 1]. -/
theorem getScore_mem (w : WorkloadType)
    (mm : AllocatorType → Option AllocatorMetrics) (a : AllocatorType) :
    0 ≤ SmartEdgeAlloc.getScore w mm a ∧ SmartEdgeAlloc.getScore w mm a ≤ 1 := by
  unfold SmartEdgeAlloc.getScore
  cases mm a
  · exact clamp01_mem _
  · exact clamp01_mem _

/-- Every score selectOptimalAllocator computes is clamped into [0, 1]. -/
theorem selScore_mem (w : WorkloadType)
    (mm : AllocatorType → Option AllocatorMetrics) (a : AllocatorType) :
    0 ≤ SmartEdgeAlloc.selScore w mm a ∧ SmartEdgeAlloc.selScore w mm a ≤ 1 := by
  unfold SmartEdgeAlloc.selScore
  cases mm a
  · exact clamp01_mem _
  · exact clamp01_mem _

/-- The first entry of the stable descending sort belongs to the input list
and carries a maximal score. -/
theorem head_mergeSort_max (L : List AllocatorScore) (x : AllocatorScore)
    (hx : (L.mergeSort SmartEdgeAlloc.scoreDesc).head? = some x) :
    x ∈ L ∧ ∀ y ∈ L, y.score ≤ x.score := by
  have hperm := List.mergeSort_perm L SmartEdgeAlloc.scoreDesc
  have hsorted := List.sorted_mergeSort scoreDesc_trans scoreDesc_total L
  rcases hms : L.mergeSort SmartEdgeAlloc.scoreDesc with _ | ⟨z, rest⟩
  · rw [hms] at hx
    exact absurd hx (by simp)
  · rw [hms] at hx hperm hsorted
    simp only [List.head?_cons, Option.some.injEq] at hx
    subst hx
    refine ⟨hperm.subset (List.mem_cons_self _ _), ?_⟩
    intro y hy
    have hy2 := hperm.symm.subset hy
    rcases List.mem_cons.mp hy2 with rfl | hyr
    · exact le_refl _
    · have hxy := (List.pairwise_cons.mp hsorted).1 y hyr
      simpa [SmartEdgeAlloc.scoreDesc] using hxy

/-- C8: for every workload pattern and metrics map, every score the selector
produces lies in [0, 1] — every entry of the list getAllocatorScores
returns, every per-strategy score selectOptimalAllocator computes, and in
particular the score of the entry selectOptimalAllocator returns (the clamp
guarantees it whatever the metrics hold) — and the list returned by
getAllocatorScores is sorted in non-increasing order of score. -/
theorem C8_scores_bounded_sorted_descending (w : WorkloadType)
    (mm : AllocatorType → Option AllocatorMetrics) :
    (∀ e ∈ SmartEdgeAlloc.getAllocatorScores w mm,
       0 ≤ e.score ∧ e.score ≤ 1) ∧
    (∀ a : AllocatorType,
       0 ≤ SmartEdgeAlloc.selScore w mm a ∧
       SmartEdgeAlloc.selScore w mm a ≤ 1) ∧
    (∀ e, SmartEdgeAlloc.selectOptimalAllocator w mm = some e →
       0 ≤ e.score ∧ e.score ≤ 1) ∧
    (SmartEdgeAlloc.getAllocatorScores w mm).Pairwise
      (fun a b => b.score ≤ a.score) := by
  refine ⟨?_, ?_, ?_, ?_⟩
  · intro e he
    have hmem : e ∈ allocatorTypeValues.map
        (fun a => (⟨a, SmartEdgeAlloc.getScore w mm a⟩ : AllocatorScore)) :=
      (List.mergeSort_perm _ _).subset he
    obtain ⟨a, -, rfl⟩ := List.mem_map.mp hmem
    exact getScore_mem w mm a
  · intro a
    exact selScore_mem w mm a
  · intro e he
    have he2 : ((allocatorTypeValues.map
        (fun a => (⟨a, SmartEdgeAlloc.selScore w mm a⟩ : AllocatorScore))).mergeSort
          SmartEdgeAlloc.scoreDesc).head? = some e := he
    obtain ⟨heL, -⟩ := head_mergeSort_max _ e he2
    obtain ⟨a, -, rfl⟩ := List.mem_map.mp heL
    exact selScore_mem w mm a
  · exact (List.sorted_mergeSort scoreDesc_trans scoreDesc_total _).imp
      (fun h => by simpa [SmartEdgeAlloc.scoreDesc] using h)

/-- C8 witness: the bound-and-order property applied to the Random pattern
with an empty metrics map. -/
theorem C8_witness :
    (∀ a : AllocatorType,
       0 ≤ SmartEdgeAlloc.selScore WorkloadType.random (fun _ => none) a ∧
       SmartEdgeAlloc.selScore WorkloadType.random (fun _ => none) a ≤ 1) ∧
    (SmartEdgeAlloc.getAllocatorScores WorkloadType.random
        (fun _ => none)).Pairwise (fun a b => b.score ≤ a.score) :=
  ⟨(C8_scores_bounded_sorted_descending WorkloadType.random (fun _ => none)).2.1,
   (C8_scores_bounded_sorted_descending WorkloadType.random (fun _ => none)).2.2.2⟩

/-- C10: the engine instantiates no allocator for the SmartEdgeAlloc
pseudo-strategy, and whenever the metrics map carries no entry for it (as
every engine-produced map does), its score inside selectOptimalAllocator is
exactly 1; consequently, whenever every concrete strategy scores strictly
below 1, selectOptimalAllocator picks SmartEdgeAlloc. -/
theorem C10_smart_edge_pseudo_strategy_wins :
    AllocatorType.smartEdgeAlloc ∉ SimulationEngine.engineAllocatorTypes ∧
    ∀ (w : WorkloadType) (mm : AllocatorType → Option AllocatorMetrics),
      mm AllocatorType.smartEdgeAlloc = none →
      SmartEdgeAlloc.selScore w mm AllocatorType.smartEdgeAlloc = 1 ∧
      ((∀ a ∈ SimulationEngine.engineAllocatorTypes,
          SmartEdgeAlloc.selScore w mm a < 1) →
        (SmartEdgeAlloc.selectOptimalAllocator w mm).map
          AllocatorScore.allocator = some AllocatorType.smartEdgeAlloc) := by
  refine ⟨by decide, ?_⟩
  intro w mm hnone
  have hsmart : SmartEdgeAlloc.selScore w mm AllocatorType.smartEdgeAlloc = 1 := by
    unfold SmartEdgeAlloc.selScore
    rw [hnone]
    have hw : SmartEdgeAlloc.workloadWeights w AllocatorType.smartEdgeAlloc = 1 := by
      cases w <;> norm_num [SmartEdgeAlloc.workloadWeights]
    rw [hw]
    norm_num [SmartEdgeAlloc.clamp01]
  refine ⟨hsmart, ?_⟩
  intro hlt
  have hx : ∃ x, ((allocatorTypeValues.map
      (fun a => (⟨a, SmartEdgeAlloc.selScore w mm a⟩ : AllocatorScore))).mergeSort
        SmartEdgeAlloc.scoreDesc).head? = some x := by
    rcases hms : (allocatorTypeValues.map
        (fun a => (⟨a, SmartEdgeAlloc.selScore w mm a⟩ : AllocatorScore))).mergeSort
          SmartEdgeAlloc.scoreDesc with _ | ⟨z, rest⟩
    · have := @List.length_mergeSort AllocatorScore SmartEdgeAlloc.scoreDesc
        (allocatorTypeValues.map
          (fun a => (⟨a, SmartEdgeAlloc.selScore w mm a⟩ : AllocatorScore)))
      rw [hms] at this
      simp [allocatorTypeValues] at this
    · exact ⟨z, rfl⟩
  obtain ⟨x, hx⟩ := hx
  obtain ⟨hxL, hmax⟩ := head_mergeSort_max _ x hx
  have hsmartMem : (⟨AllocatorType.smartEdgeAlloc,
      SmartEdgeAlloc.selScore w mm AllocatorType.smartEdgeAlloc⟩ : AllocatorScore)
      ∈ allocatorTypeValues.map
        (fun a => (⟨a, SmartEdgeAlloc.selScore w mm a⟩ : AllocatorScore)) :=
    List.mem_map_of_mem _ (by decide)
  have hone_le : 1 ≤ x.score := by
    have := hmax _ hsmartMem
    rw [hsmart] at this
    exact this
  obtain ⟨a, -, hax⟩ := List.mem_map.mp hxL
  have hxscore : x.score = SmartEdgeAlloc.selScore w mm a := by
    rw [← hax]
  have hsel_eq_one : SmartEdgeAlloc.selScore w mm a = 1 := by
    have hle := (selScore_mem w mm a).2
    rw [← hxscore] at hle ⊢
    exact le_antisymm hle hone_le
  have ha_smart : a = AllocatorType.smartEdgeAlloc := by
    cases a
    case linear => exact absurd hsel_eq_one (ne_of_lt (hlt _ (by decide)))
    case stack => exact absurd hsel_eq_one (ne_of_lt (hlt _ (by decide)))
    case pool => exact absurd hsel_eq_one (ne_of_lt (hlt _ (by decide)))
    case freeList => exact absurd hsel_eq_one (ne_of_lt (hlt _ (by decide)))
    case rbTree => exact absurd hsel_eq_one (ne_of_lt (hlt _ (by decide)))
    case buddy => exact absurd hsel_eq_one (ne_of_lt (hlt _ (by decide)))
    case cAllocator => exact absurd hsel_eq_one (ne_of_lt (hlt _ (by decide)))
    case smartEdgeAlloc => rfl
  have hsel : SmartEdgeAlloc.selectOptimalAllocator w mm = some x := hx
  rw [hsel, ← hax]
  simp [Option.map, ha_smart]

unseal Rat.ofScientific in
/-- C10 witness: with no live metrics at all and the Random pattern, every
concrete strategy keeps its base affinity (at most 0.9) and
selectOptimalAllocator returns the SmartEdgeAlloc pseudo-strategy. -/
theorem C10_witness :
    (SmartEdgeAlloc.selectOptimalAllocator WorkloadType.random
        (fun _ => none)).map AllocatorScore.allocator =
      some AllocatorType.smartEdgeAlloc :=
  ((C10_smart_edge_pseudo_strategy_wins.2 WorkloadType.random
      (fun _ => none) rfl).2 (by decide))

/-- The metrics record of the C9 failing input: fragmentation 40, success
rate 95, usage 100, waste 20, average allocation time 0.3. -/
def c9Metrics : AllocatorMetrics :=
  { totalAllocations := 0, totalDeallocations := 0, currentMemoryUsage := 100
    peakMemoryUsage := 100, fragmentation := 40, averageAllocationTime := 0.3
    averageDeallocationTime := 0, wastedSpace := 20, successRate := 95 }

/-- A metrics map holding live metrics only for the SmartEdgeAlloc
pseudo-strategy. -/
def c9Map : AllocatorType → Option AllocatorMetrics := fun a =>
  if a = AllocatorType.smartEdgeAlloc then some c9Metrics else none

unseal Rat.mul Rat.add Rat.inv Rat.ofScientific List.merge List.mergeSort in
/-- C9: the claim says selectOptimalAllocator returns exactly the first
element of getAllocatorScores on the same inputs because both apply the
same thresholds and factors.  The two methods in fact use different
constants (fragmentation threshold 30 vs 50, success-rate thresholds 95/98
vs 90/95, latency threshold 0.5 vs 1.0, and different factors), and on the
Random pattern with live metrics only for SmartEdgeAlloc (fragmentation 40,
success rate 95, efficiency 100/120, latency 0.3) selectOptimalAllocator
applies its fragmentation penalty (1.0 x 0.6) and returns C Allocator
(base 0.9), while getAllocatorScores applies no adjustment and ranks
SmartEdgeAlloc (1.0) first. -/
theorem C9_select_differs_from_first_score :
    (SmartEdgeAlloc.selectOptimalAllocator WorkloadType.random c9Map).map
      AllocatorScore.allocator = some AllocatorType.cAllocator ∧
    ((SmartEdgeAlloc.getAllocatorScores WorkloadType.random c9Map).head?).map
      AllocatorScore.allocator = some AllocatorType.smartEdgeAlloc ∧
    ¬ AllocatorType.cAllocator = AllocatorType.smartEdgeAlloc := by
  decide

end MemSim
